import Mathlib

/-!
Verification of the credential-lifecycle manager and resilient-call executor of
homebridge-ecobee-fan-control.

The repository contains the current sources under `src/` (`network-retry.ts`,
`auth-token-refresh.ts`) together with several retained variant versions of the
same two files (a rate-limit-aware `NetworkRetry` with a 429 branch, a
rate-limit-aware `AuthTokenManager` with a `rateLimitedUntil` back-off window,
and an `AuthTokenManager` whose catch block rethrows to the caller).  Both the
current files and the variants are embedded below; definitions for the variants
carry an `RL` (rate-limit-aware) or `Prop-` (propagating) marker in their name.

Times in the executor model are milliseconds; times in the manager models are
seconds (matching the units the respective TypeScript code computes in).
Randomized jitter is modelled by an explicit integer parameter, and the wall
clock by an explicit `now` argument.
-/

/-! ## Error model (axios-style errors) -/

/-- An axios error as observed by `isRetryableError`: an optional transport
error code, an optional HTTP response status, and an optional numeric
Retry-After response header (seconds). -/
structure AxiosErr where
  code : Option String
  status : Option Nat
  retryAfter : Option Nat
deriving DecidableEq, Repr

/-- A failure raised by an operation: either an axios error or a plain
`Error` (for which `axios.isAxiosError` is false). -/
inductive ExecErr where
  | axios (e : AxiosErr)
  | plain (msg : String)
deriving DecidableEq, Repr

/-! ## NetworkRetry: configuration -/

/-- The default list assigned to `retryableErrors` in the `NetworkRetry`
constructor. -/
def defaultRetryableErrors : List String :=
  ["ECONNRESET", "ETIMEDOUT", "ECONNREFUSED", "ENOTFOUND", "EAI_AGAIN"]

/-- The fields of a constructed `NetworkRetry` instance.  `totalWindowMs` is in
milliseconds, as in the source. -/
structure RetryPolicy where
  maxAttempts : Nat
  initialDelay : Nat
  maxDelay : Nat
  backoffFactor : Nat
  totalWindowMs : Nat
  retryableErrors : List String
deriving DecidableEq, Repr

/-- JavaScript `options.x || default`: a missing or zero (falsy) option falls
back to the default. -/
def orDefault (x : Option Nat) (d : Nat) : Nat :=
  match x with
  | some v => if v = 0 then d else v
  | none => d

/-- The `NetworkRetry` constructor: all options are optional and fall back to
the defaults `totalWindowSeconds = 270`, `maxAttempts = 8`,
`initialDelay = 15000`, `maxDelay = 60000`, `backoffFactor = 2`. -/
def mkRetryPolicy (totalWindowSeconds maxAttempts initialDelay maxDelay backoffFactor :
    Option Nat) : RetryPolicy :=
  { totalWindowMs := orDefault totalWindowSeconds 270 * 1000
    maxAttempts := orDefault maxAttempts 8
    initialDelay := orDefault initialDelay 15000
    maxDelay := orDefault maxDelay 60000
    backoffFactor := orDefault backoffFactor 2
    retryableErrors := defaultRetryableErrors }

/-- The `NetworkRetry` instance built in the `AuthTokenManager` constructor of
the current source: `totalWindowSeconds = 300 - 30`, `maxAttempts = 8`,
`initialDelay = 15000`, `maxDelay = 60000`, `backoffFactor = 2`. -/
def authRetryPolicy : RetryPolicy :=
  mkRetryPolicy (some 270) (some 8) (some 15000) (some 60000) (some 2)

/-! ## NetworkRetry: failure classification -/

/-- `isRetryableError` of the current `src/network-retry.ts`: an axios error is
retryable when its (truthy) code is in `retryableErrors`, or its (truthy)
response status is at least 500, or its code is `EAI_AGAIN` or `ETIMEDOUT`.
Everything else, including every non-axios error, is not retryable.  Note that
an HTTP 429 status is not treated as retryable by this version. -/
def isRetryableError (P : RetryPolicy) : ExecErr → Bool
  | .axios e =>
      (match e.code with
       | some c => c != "" && P.retryableErrors.contains c
       | none => false)
      || (match e.status with
          | some s => decide (s ≠ 0) && decide (500 ≤ s)
          | none => false)
      || e.code == some "EAI_AGAIN"
      || e.code == some "ETIMEDOUT"
  | .plain _ => false

/-- `isRetryableError` of the rate-limit-aware `NetworkRetry` variant, which
additionally treats an HTTP 429 response as retryable. -/
def isRetryableErrorRL (P : RetryPolicy) : ExecErr → Bool
  | .axios e =>
      (match e.code with
       | some c => c != "" && P.retryableErrors.contains c
       | none => false)
      || (match e.status with
          | some s => decide (s ≠ 0) && decide (500 ≤ s)
          | none => false)
      || e.status == some 429
      || e.code == some "EAI_AGAIN"
      || e.code == some "ETIMEDOUT"
  | .plain _ => false

/-- Whether an error carries an HTTP 429 status (rate limiting). -/
def is429 : ExecErr → Bool
  | .axios e => e.status == some 429
  | .plain _ => false

/-- The specification classification of a failure (section 3 of the spec):
`RateLimited` for HTTP 429; `Retryable` for a recognized transient network
error code or an HTTP 5xx status; `Fatal` for everything else. -/
inductive CallOutcome where
  | Retryable
  | RateLimited
  | Fatal
deriving DecidableEq, Repr

/-- Classify a failure following the wording of the spec.  The recognized
transient network codes are the configured `retryableErrors` together with the
always-recognized `EAI_AGAIN` and `ETIMEDOUT`. -/
def classifyFailure (P : RetryPolicy) (e : ExecErr) : CallOutcome :=
  if is429 e then .RateLimited
  else if isRetryableError P e then .Retryable
  else .Fatal

/-! ## NetworkRetry: delay computation -/

/-- `calculateDelay` of the current `src/network-retry.ts`.  The base delay is
`initialDelay * backoffFactor ^ attempt`; the random jitter (plus-minus 25
percent of the base) is modelled by the integer argument `jit`; the result is
capped at `maxDelay` after the jitter has been added. -/
def calculateDelay (P : RetryPolicy) (attempt : Nat) (jit : Int) : Int :=
  min (((P.initialDelay * P.backoffFactor ^ attempt : Nat) : Int) + jit)
      ((P.maxDelay : Nat) : Int)

/-- `calculateDelay` of the rate-limit-aware `NetworkRetry` variant.  For an
HTTP 429 error with a numeric Retry-After header the delay is the header value
in milliseconds clamped to `[initialDelay, 5 minutes]`; for a 429 without the
header it is `initialDelay * 2 ^ (attempt + 2)` plus jitter, capped at
`2 * maxDelay`; all other errors use the base computation. -/
def calculateDelayRL (P : RetryPolicy) (attempt : Nat) (e : Option ExecErr)
    (jit : Int) : Int :=
  match e with
  | some (.axios a) =>
      if a.status == some 429 then
        match a.retryAfter with
        | some ra => min (max ((ra : Int) * 1000) ((P.initialDelay : Nat) : Int))
            (5 * 60 * 1000)
        | none =>
            min (((P.initialDelay : Nat) : Int) * 2 ^ (attempt + 2) + jit)
                (((P.maxDelay : Nat) : Int) * 2)
      else calculateDelay P attempt jit
  | _ => calculateDelay P attempt jit

/-! ## NetworkRetry: execute -/

/-- The outcome of invoking the wrapped operation once. -/
inductive AttemptRes where
  | ok
  | fail (e : ExecErr)
deriving DecidableEq, Repr

/-- Observable record of one `execute` run: how many times the operation was
invoked, the list of back-off sleeps taken (each paired with the value of
`timeRemaining` at the moment the sleep was decided), the total elapsed time,
and the error thrown (`none` on success). -/
structure ExecLog where
  invocations : Nat
  sleeps : List (Int × Int)
  elapsed : Int
  err : Option ExecErr
deriving DecidableEq, Repr

/-- The retry loop of `execute` in the current `src/network-retry.ts`.
`op a` is the result of the operation on attempt `a`, `dur a` its duration in
milliseconds, `jit a` the jitter drawn for the back-off after attempt `a`.
`fuel` counts the attempts still allowed (`maxAttempts - attempt`); the third
argument is the elapsed time at the start of the attempt.  On failure the loop
rethrows when the error is not retryable, or the remaining window is exhausted,
or this was the last allowed attempt; otherwise it sleeps `calculateDelay` and
continues. -/
def executeAux (P : RetryPolicy) (op : Nat → AttemptRes) (dur : Nat → Nat)
    (jit : Nat → Int) : Nat → Nat → Int → ExecLog
  | _, 0, t => ⟨0, [], t, some (.plain "no attempts allowed")⟩
  | attempt, fuel + 1, t0 =>
      let t := t0 + (dur attempt : Int)
      match op attempt with
      | .ok => ⟨1, [], t, none⟩
      | .fail e =>
          let remaining : Int := ((P.totalWindowMs : Nat) : Int) - t
          if isRetryableError P e = false ∨ remaining ≤ 0 ∨ fuel = 0 then
            ⟨1, [], t, some e⟩
          else
            let d := calculateDelay P attempt (jit attempt)
            let rest := executeAux P op dur jit (attempt + 1) fuel (t + d)
            ⟨rest.invocations + 1, (d, remaining) :: rest.sleeps, rest.elapsed,
              rest.err⟩

/-- `execute` of the current `src/network-retry.ts`, starting at attempt 0 with
zero elapsed time. -/
def execute (P : RetryPolicy) (op : Nat → AttemptRes) (dur : Nat → Nat)
    (jit : Nat → Int) : ExecLog :=
  executeAux P op dur jit 0 P.maxAttempts 0

/-- The retry loop of the rate-limit-aware `NetworkRetry` variant: identical
control flow, but classification uses `isRetryableErrorRL` and the delay is
`calculateDelayRL` which inspects the error. -/
def executeRLAux (P : RetryPolicy) (op : Nat → AttemptRes) (dur : Nat → Nat)
    (jit : Nat → Int) : Nat → Nat → Int → ExecLog
  | _, 0, t => ⟨0, [], t, some (.plain "no attempts allowed")⟩
  | attempt, fuel + 1, t0 =>
      let t := t0 + (dur attempt : Int)
      match op attempt with
      | .ok => ⟨1, [], t, none⟩
      | .fail e =>
          let remaining : Int := ((P.totalWindowMs : Nat) : Int) - t
          if isRetryableErrorRL P e = false ∨ remaining ≤ 0 ∨ fuel = 0 then
            ⟨1, [], t, some e⟩
          else
            let d := calculateDelayRL P attempt (some e) (jit attempt)
            let rest := executeRLAux P op dur jit (attempt + 1) fuel (t + d)
            ⟨rest.invocations + 1, (d, remaining) :: rest.sleeps, rest.elapsed,
              rest.err⟩

/-- `execute` of the rate-limit-aware `NetworkRetry` variant. -/
def executeRL (P : RetryPolicy) (op : Nat → AttemptRes) (dur : Nat → Nat)
    (jit : Nat → Int) : ExecLog :=
  executeRLAux P op dur jit 0 P.maxAttempts 0

/-! ## Executor lemmas -/

/-- A failure the spec classifies `Fatal` is not retryable for the current
executor. -/
theorem fatal_not_retryable (P : RetryPolicy) (e : ExecErr)
    (h : classifyFailure P e = .Fatal) : isRetryableError P e = false := by
  unfold classifyFailure at h
  by_cases h4 : is429 e = true
  · simp [h4] at h
  · simp [h4] at h
    by_cases hr : isRetryableError P e = true
    · simp [hr] at h
    · simpa using hr

/-- Claim C2: an operation whose first failure is classified `Fatal` (neither a
recognized transient network error code, nor an HTTP 5xx status, nor rate
limiting) is invoked exactly once by `execute`; the error is propagated with no
retry and no back-off sleep. -/
theorem execute_fatal_single_invocation (P : RetryPolicy) (e : ExecErr)
    (op : Nat → AttemptRes) (dur : Nat → Nat) (jit : Nat → Int)
    (hma : 1 ≤ P.maxAttempts) (hop : op 0 = .fail e)
    (hfatal : classifyFailure P e = .Fatal) :
    execute P op dur jit = ⟨1, [], ((dur 0 : Nat) : Int), some e⟩ := by
  obtain ⟨k, hk⟩ : ∃ k, P.maxAttempts = k + 1 :=
    ⟨P.maxAttempts - 1, by omega⟩
  have hnr := fatal_not_retryable P e hfatal
  unfold execute
  rw [hk]
  simp only [executeAux, hop, hnr]
  simp

/-- A 4xx response other than 429, used as a concrete `Fatal` failure. -/
def e400 : ExecErr := .axios ⟨none, some 400, none⟩

/-- Witness for C2 at a concrete HTTP 400 failure. -/
theorem execute_fatal_single_invocation_witness :
    (1 ≤ authRetryPolicy.maxAttempts ∧
      classifyFailure authRetryPolicy e400 = .Fatal) ∧
    execute authRetryPolicy (fun _ => .fail e400) (fun _ => 0) (fun _ => 0) =
      ⟨1, [], 0, some e400⟩ :=
  ⟨⟨by decide, by decide⟩,
    execute_fatal_single_invocation authRetryPolicy e400 _ _ _ (by decide) rfl
      (by decide)⟩

/-- A transient connection-reset failure. -/
def econnResetErr : ExecErr := .axios ⟨some "ECONNRESET", none, none⟩

/-- Claim C3, counterexample: with the token-refresh policy, a first attempt
that fails after 260 s leaves 10 s of the 270 s window, yet the executor sleeps
the full 15 s base delay — a single inter-attempt sleep exceeds the time
remaining in the total window. -/
theorem execute_sleep_exceeds_remaining :
    (execute authRetryPolicy (fun _ => .fail econnResetErr)
        (fun a => if a = 0 then 260000 else 0) (fun _ => 0)).sleeps =
      [(15000, 10000)] ∧
    ¬ (∀ p ∈ (execute authRetryPolicy (fun _ => .fail econnResetErr)
        (fun a => if a = 0 then 260000 else 0) (fun _ => 0)).sleeps,
        p.1 ≤ p.2) := by
  constructor
  · decide
  · decide

/-- Bound lemma for the retry loop: starting from elapsed time at most
`totalWindow + maxDelay`, every recorded sleep is taken while the remaining
window is positive and is itself at most `maxDelay`, and the final elapsed time
is at most `totalWindow + maxDelay` plus one attempt duration. -/
theorem executeAux_bounds (P : RetryPolicy) (op : Nat → AttemptRes)
    (dur : Nat → Nat) (jit : Nat → Int) (Dm : Nat) (hdur : ∀ i, dur i ≤ Dm) :
    ∀ (fuel attempt : Nat) (t : Int),
      t ≤ (P.totalWindowMs : Int) + (P.maxDelay : Int) →
      (∀ p ∈ (executeAux P op dur jit attempt fuel t).sleeps,
          0 < p.2 ∧ p.1 ≤ (P.maxDelay : Int)) ∧
      (executeAux P op dur jit attempt fuel t).elapsed ≤
        (P.totalWindowMs : Int) + (P.maxDelay : Int) + (Dm : Int) := by
  intro fuel
  induction fuel with
  | zero =>
      intro attempt t ht
      simp only [executeAux]
      refine ⟨?_, ?_⟩
      · intro p hp
        simp at hp
      · omega
  | succ k ih =>
      intro attempt t ht
      have hdi : (dur attempt : Int) ≤ (Dm : Int) := by
        exact_mod_cast hdur attempt
      cases hop : op attempt with
      | ok =>
          simp only [executeAux, hop]
          refine ⟨?_, ?_⟩
          · intro p hp
            simp at hp
          · omega
      | fail e =>
          simp only [executeAux, hop]
          split
          · refine ⟨?_, ?_⟩
            · intro p hp
              simp at hp
            · dsimp only
              omega
          · rename_i hcond
            push_neg at hcond
            obtain ⟨hret, hrem, hfuel⟩ := hcond
            have hd : calculateDelay P attempt (jit attempt) ≤
                ((P.maxDelay : Nat) : Int) := min_le_right _ _
            have hrec := ih (attempt + 1)
              (t + (dur attempt : Int) + calculateDelay P attempt (jit attempt))
              (by omega)
            refine ⟨?_, ?_⟩
            · intro p hp
              simp only [List.mem_cons] at hp
              rcases hp with hp | hp
              · subst hp
                exact ⟨by omega, hd⟩
              · exact hrec.1 p hp
            · exact hrec.2

/-- Claim C3, amended: `execute` decides to sleep only while the remaining
window is positive, but an individual sleep is bounded by `maxDelay` rather
than by the remaining time; consequently the total wall-clock time of one
`execute` call is bounded by `totalWindow + maxDelay` plus the duration of one
in-flight attempt. -/
theorem execute_window_bounds (P : RetryPolicy) (op : Nat → AttemptRes)
    (dur : Nat → Nat) (jit : Nat → Int) (Dm : Nat) (hdur : ∀ i, dur i ≤ Dm) :
    (∀ p ∈ (execute P op dur jit).sleeps,
        0 < p.2 ∧ p.1 ≤ (P.maxDelay : Int)) ∧
    (execute P op dur jit).elapsed ≤
      (P.totalWindowMs : Int) + (P.maxDelay : Int) + (Dm : Int) :=
  executeAux_bounds P op dur jit Dm hdur P.maxAttempts 0 0 (by omega)

/-- Witness for the amended C3 at the concrete slow-attempt run. -/
theorem execute_window_bounds_witness :
    (∀ i, (if i = 0 then 260000 else 0) ≤ 260000) ∧
    ((∀ p ∈ (execute authRetryPolicy (fun _ => .fail econnResetErr)
        (fun a => if a = 0 then 260000 else 0) (fun _ => 0)).sleeps,
        0 < p.2 ∧ p.1 ≤ (authRetryPolicy.maxDelay : Int)) ∧
      (execute authRetryPolicy (fun _ => .fail econnResetErr)
        (fun a => if a = 0 then 260000 else 0) (fun _ => 0)).elapsed ≤
        (authRetryPolicy.totalWindowMs : Int) + (authRetryPolicy.maxDelay : Int) +
          ((260000 : Nat) : Int)) :=
  ⟨fun i => by split <;> omega,
    execute_window_bounds authRetryPolicy _ _ _ 260000
      (fun i => by split <;> omega)⟩

/-- An HTTP 429 rate-limit failure without a Retry-After header. -/
def err429 : ExecErr := .axios ⟨none, some 429, none⟩

/-- Claim C4, counterexample: the current `src/network-retry.ts` does not
classify an HTTP 429 failure as retryable, so `execute` invokes the operation
exactly once and propagates the 429 instead of retrying it. -/
theorem err429_not_retried :
    isRetryableError authRetryPolicy err429 = false ∧
    execute authRetryPolicy (fun _ => .fail err429) (fun _ => 0) (fun _ => 0) =
      ⟨1, [], 0, some err429⟩ := by
  exact ⟨by decide, by decide⟩

/-- In the rate-limit-aware variant, a 429 failure is classified retryable. -/
theorem is429_retryableRL (P : RetryPolicy) (e : ExecErr) (h : is429 e = true) :
    isRetryableErrorRL P e = true := by
  cases e with
  | axios a =>
      simp only [is429] at h
      simp [isRetryableErrorRL, h]
  | plain m => simp [is429] at h

/-- In the rate-limit-aware variant, a first-attempt 429 failure followed by a
success is retried: two invocations and a successful result. -/
theorem executeRL_429_retries (P : RetryPolicy) (op : Nat → AttemptRes)
    (dur : Nat → Nat) (jit : Nat → Int) (e : ExecErr) (h429 : is429 e = true)
    (hop0 : op 0 = .fail e) (hop1 : op 1 = .ok) (hma : 2 ≤ P.maxAttempts)
    (hwin : ((dur 0 : Nat) : Int) < (P.totalWindowMs : Int)) :
    (executeRL P op dur jit).invocations = 2 ∧
      (executeRL P op dur jit).err = none := by
  obtain ⟨k, hk⟩ : ∃ k, P.maxAttempts = k + 2 :=
    ⟨P.maxAttempts - 2, by omega⟩
  have hret := is429_retryableRL P e h429
  unfold executeRL
  rw [hk]
  simp only [executeRLAux, hop0, zero_add, hop1]
  rw [if_neg ?hc]
  case hc =>
    push_neg
    refine ⟨by simp [hret], by omega, by omega⟩
  simp

/-- In the rate-limit-aware variant, a 429 with a numeric Retry-After header of
`ra` seconds yields a delay equal to `ra * 1000` ms clamped to
`[initialDelay, 5 minutes]`, hence at least `min (ra * 1000) (5 minutes)`. -/
theorem calculateDelayRL_retryAfter (P : RetryPolicy) (attempt : Nat)
    (a : AxiosErr) (jit : Int) (ra : Nat) (hst : a.status = some 429)
    (hra : a.retryAfter = some ra) :
    calculateDelayRL P attempt (some (.axios a)) jit =
      min (max ((ra : Int) * 1000) ((P.initialDelay : Nat) : Int))
        (5 * 60 * 1000) ∧
    min ((ra : Int) * 1000) (5 * 60 * 1000) ≤
      calculateDelayRL P attempt (some (.axios a)) jit := by
  have hdef : calculateDelayRL P attempt (some (.axios a)) jit =
      min (max ((ra : Int) * 1000) ((P.initialDelay : Nat) : Int))
        (5 * 60 * 1000) := by
    simp only [calculateDelayRL, hst, hra, beq_self_eq_true, if_true]
  rw [hdef]
  exact ⟨rfl, min_le_min (le_max_left _ _) le_rfl⟩

/-- In the rate-limit-aware variant, a 429 without a Retry-After header uses
the steeper base `initialDelay * 2 ^ (attempt + 2)`, with jitter applied, then
capped at `2 * maxDelay`. -/
theorem calculateDelayRL_noHeader (P : RetryPolicy) (attempt : Nat)
    (a : AxiosErr) (jit : Int) (hst : a.status = some 429)
    (hra : a.retryAfter = none) :
    calculateDelayRL P attempt (some (.axios a)) jit =
      min (((P.initialDelay : Nat) : Int) * 2 ^ (attempt + 2) + jit)
        (((P.maxDelay : Nat) : Int) * 2) := by
  simp only [calculateDelayRL, hst, hra, beq_self_eq_true, if_true]

/-- Claim C4, amended: only in the rate-limit-aware `NetworkRetry` variant is a
429 failure classified retryable and retried by `execute`; there, a numeric
Retry-After header is honored clamped to `[initialDelay, 5 minutes]` (so a
10-second header yields at least 10 seconds), and absent a header the delay is
`initialDelay * 2 ^ (attempt + 2)` with jitter, capped at `2 * maxDelay`.  The
current executor propagates a 429 without retrying. -/
theorem rateLimited_handling_variant :
    (∀ (P : RetryPolicy) (e : ExecErr), is429 e = true →
      isRetryableErrorRL P e = true) ∧
    (∀ (P : RetryPolicy) (op : Nat → AttemptRes) (dur : Nat → Nat)
        (jit : Nat → Int) (e : ExecErr), is429 e = true → op 0 = .fail e →
      op 1 = .ok → 2 ≤ P.maxAttempts →
      ((dur 0 : Nat) : Int) < (P.totalWindowMs : Int) →
      (executeRL P op dur jit).invocations = 2 ∧
        (executeRL P op dur jit).err = none) ∧
    (∀ (P : RetryPolicy) (attempt : Nat) (a : AxiosErr) (jit : Int) (ra : Nat),
      a.status = some 429 → a.retryAfter = some ra →
      calculateDelayRL P attempt (some (.axios a)) jit =
        min (max ((ra : Int) * 1000) ((P.initialDelay : Nat) : Int))
          (5 * 60 * 1000) ∧
      min ((ra : Int) * 1000) (5 * 60 * 1000) ≤
        calculateDelayRL P attempt (some (.axios a)) jit) ∧
    (∀ (P : RetryPolicy) (attempt : Nat) (a : AxiosErr) (jit : Int),
      a.status = some 429 → a.retryAfter = none →
      calculateDelayRL P attempt (some (.axios a)) jit =
        min (((P.initialDelay : Nat) : Int) * 2 ^ (attempt + 2) + jit)
          (((P.maxDelay : Nat) : Int) * 2)) :=
  ⟨is429_retryableRL,
    executeRL_429_retries,
    fun P attempt a jit ra hst hra =>
      calculateDelayRL_retryAfter P attempt a jit ra hst hra,
    fun P attempt a jit hst hra =>
      calculateDelayRL_noHeader P attempt a jit hst hra⟩

/-- Witness for the amended C4: a 429 with a 10-second Retry-After header and
the token-refresh policy. -/
theorem rateLimited_handling_variant_witness :
    isRetryableErrorRL authRetryPolicy err429 = true ∧
    ((executeRL authRetryPolicy (fun a => if a = 0 then .fail err429 else .ok)
        (fun _ => 0) (fun _ => 0)).invocations = 2 ∧
      (executeRL authRetryPolicy (fun a => if a = 0 then .fail err429 else .ok)
        (fun _ => 0) (fun _ => 0)).err = none) ∧
    (calculateDelayRL authRetryPolicy 0 (some (.axios ⟨none, some 429, some 10⟩)) 0 =
        min (max (((10 : Nat) : Int) * 1000)
          ((authRetryPolicy.initialDelay : Nat) : Int)) (5 * 60 * 1000) ∧
      min (((10 : Nat) : Int) * 1000) (5 * 60 * 1000) ≤
        calculateDelayRL authRetryPolicy 0
          (some (.axios ⟨none, some 429, some 10⟩)) 0) ∧
    calculateDelayRL authRetryPolicy 1 (some (.axios ⟨none, some 429, none⟩)) 0 =
      min (((authRetryPolicy.initialDelay : Nat) : Int) * 2 ^ (1 + 2) + 0)
        (((authRetryPolicy.maxDelay : Nat) : Int) * 2) :=
  ⟨rateLimited_handling_variant.1 authRetryPolicy err429 (by decide),
    rateLimited_handling_variant.2.1 authRetryPolicy _ _ _ err429 (by decide)
      rfl rfl (by decide) (by decide),
    rateLimited_handling_variant.2.2.1 authRetryPolicy 0 ⟨none, some 429, some 10⟩
      0 10 rfl rfl,
    rateLimited_handling_variant.2.2.2 authRetryPolicy 1 ⟨none, some 429, none⟩
      0 rfl rfl⟩

/-- Modelled from the spec wording for claim C8: compute
`min(initialDelay * backoffFactor ^ attempt, maxDelay)` first, then apply the
symmetric jitter to that capped value. -/
def retryDelaySpec (P : RetryPolicy) (attempt : Nat) (jit : Int) : Int :=
  min (((P.initialDelay * P.backoffFactor ^ attempt : Nat) : Int))
      ((P.maxDelay : Nat) : Int) + jit

/-- Claim C8, counterexample: with the token-refresh policy at attempt 3 the
base delay is 120000 ms and the cap 60000 ms.  For the same admissible jitter
draw of +15000 ms (25 percent of the capped value, 12.5 percent of the base)
the source computes `min(base + jitter, maxDelay) = 60000`, while the spec
formula (cap first, then jitter) gives 75000 — the source applies the cap
after the jitter, not before. -/
theorem calculateDelay_cap_order_cex :
    calculateDelay authRetryPolicy 3 15000 = 60000 ∧
    retryDelaySpec authRetryPolicy 3 15000 = 75000 ∧
    (60000 : Int) ≠ 75000 := by
  exact ⟨by decide, by decide, by decide⟩

/-- The delivered delay is always between 75 and 125 percent of the capped
base delay (stated multiplied through by 4 to stay in integers). -/
theorem calculateDelay_jitter_bounds (P : RetryPolicy) (attempt : Nat)
    (jit : Int)
    (h : 4 * jit.natAbs ≤ P.initialDelay * P.backoffFactor ^ attempt) :
    3 * min (((P.initialDelay * P.backoffFactor ^ attempt : Nat) : Int))
        ((P.maxDelay : Nat) : Int) ≤ 4 * calculateDelay P attempt jit ∧
    4 * calculateDelay P attempt jit ≤
      5 * min (((P.initialDelay * P.backoffFactor ^ attempt : Nat) : Int))
        ((P.maxDelay : Nat) : Int) := by
  unfold calculateDelay
  generalize P.initialDelay * P.backoffFactor ^ attempt = b at *
  omega

/-- The pre-jitter delay `min(initialDelay * backoffFactor ^ attempt, maxDelay)`
is monotone in the attempt number whenever the back-off factor is at least 1. -/
theorem calculateDelay_base_monotone (P : RetryPolicy) (a b : Nat)
    (hf : 1 ≤ P.backoffFactor) (hab : a ≤ b) :
    min (P.initialDelay * P.backoffFactor ^ a) P.maxDelay ≤
      min (P.initialDelay * P.backoffFactor ^ b) P.maxDelay :=
  min_le_min (Nat.mul_le_mul le_rfl (Nat.pow_le_pow_right hf hab)) le_rfl

/-- Claim C8, amended: the source applies the plus-minus 25 percent jitter to
the uncapped base delay and caps at `maxDelay` afterwards
(`min(base + jitter, maxDelay)`), not jitter-after-cap; nevertheless the
delivered delay always lies within 75 to 125 percent of the capped base
`min(initialDelay * backoffFactor ^ attempt, maxDelay)`, and the pre-jitter
capped base is monotonically non-decreasing in the attempt number whenever
`backoffFactor ≥ 1` (in particular for the default policy). -/
theorem calculateDelay_bounds_and_monotone :
    (∀ (P : RetryPolicy) (attempt : Nat) (jit : Int),
      4 * jit.natAbs ≤ P.initialDelay * P.backoffFactor ^ attempt →
      3 * min (((P.initialDelay * P.backoffFactor ^ attempt : Nat) : Int))
          ((P.maxDelay : Nat) : Int) ≤ 4 * calculateDelay P attempt jit ∧
      4 * calculateDelay P attempt jit ≤
        5 * min (((P.initialDelay * P.backoffFactor ^ attempt : Nat) : Int))
          ((P.maxDelay : Nat) : Int)) ∧
    (∀ (P : RetryPolicy) (a b : Nat), 1 ≤ P.backoffFactor → a ≤ b →
      min (P.initialDelay * P.backoffFactor ^ a) P.maxDelay ≤
        min (P.initialDelay * P.backoffFactor ^ b) P.maxDelay) :=
  ⟨calculateDelay_jitter_bounds, calculateDelay_base_monotone⟩

/-- Witness for the amended C8 with the token-refresh policy: attempt 1 with a
jitter draw of -7000 ms, and monotonicity from attempt 0 to attempt 3. -/
theorem calculateDelay_bounds_and_monotone_witness :
    (4 * (Int.natAbs (-7000)) ≤
        authRetryPolicy.initialDelay * authRetryPolicy.backoffFactor ^ 1 ∧
      3 * min (((authRetryPolicy.initialDelay *
            authRetryPolicy.backoffFactor ^ 1 : Nat) : Int))
          ((authRetryPolicy.maxDelay : Nat) : Int) ≤
        4 * calculateDelay authRetryPolicy 1 (-7000) ∧
      4 * calculateDelay authRetryPolicy 1 (-7000) ≤
        5 * min (((authRetryPolicy.initialDelay *
            authRetryPolicy.backoffFactor ^ 1 : Nat) : Int))
          ((authRetryPolicy.maxDelay : Nat) : Int)) ∧
    min (authRetryPolicy.initialDelay * authRetryPolicy.backoffFactor ^ 0)
        authRetryPolicy.maxDelay ≤
      min (authRetryPolicy.initialDelay * authRetryPolicy.backoffFactor ^ 3)
        authRetryPolicy.maxDelay :=
  ⟨⟨by decide,
    calculateDelay_bounds_and_monotone.1 authRetryPolicy 1 (-7000) (by decide)⟩,
    calculateDelay_bounds_and_monotone.2 authRetryPolicy 0 3 (by decide)
      (by decide)⟩

/-! ## AuthTokenManager (current source): state and operations.
Times are in seconds; `setTimeout` timers are tracked as a list of live timer
entries plus the stored handle, so that the pending-timer invariant is
observable. -/

/-- A live `setTimeout` timer: its handle id and its absolute fire time. -/
structure TimerEntry where
  id : Nat
  fireAt : Int
deriving DecidableEq, Repr

/-- The mutable state of the current `AuthTokenManager`. -/
structure MgrState where
  authToken : String
  refreshToken : String
  expiration : Int
  lastRefreshAttempt : Int
  refreshInProgress : Bool
  timers : List TimerEntry
  bgHandle : Option Nat
  nextTimerId : Nat
deriving DecidableEq, Repr

/-- The `AuthTokenManager` constructor state: empty token, refresh secret from
the config, `expiration = moment()` (construction time),
`lastRefreshAttempt = moment(0)`. -/
def mkMgrState (constructedAt : Int) (configRefreshToken : String) : MgrState :=
  ⟨"", configRefreshToken, constructedAt, 0, false, [], none, 0⟩

/-- `isExpired` of the current source: token empty, or
`moment().add(300, seconds).isAfter(expiration)`, i.e. `now + 300 >
expiration` (strict). -/
def isExpired (st : MgrState) (now : Int) : Bool :=
  st.authToken == "" || decide (st.expiration < now + 300)

/-- `clearBackgroundRefresh`: cancel the stored timer handle, if any. -/
def clearBackgroundRefresh (st : MgrState) : MgrState :=
  { st with timers := st.timers.filter (fun t => some t.id != st.bgHandle),
            bgHandle := none }

/-- `scheduleBackgroundRefresh`: always clears the previous timer first, then
registers a fresh timer `delaySec` from now and stores its handle. -/
def scheduleBackgroundRefresh (st : MgrState) (now delaySec : Int) : MgrState :=
  let st1 := clearBackgroundRefresh st
  { st1 with timers := st1.timers ++ [⟨st1.nextTimerId, now + delaySec⟩],
             bgHandle := some st1.nextTimerId,
             nextTimerId := st1.nextTimerId + 1 }

/-- The JSON payload of the token endpoint as read by the renewal code:
`access_token`, `expires_in` (seconds) and optional `refresh_token`. -/
structure AuthData where
  access_token : Option String
  expires_in : Option Int
  refresh_token : Option String
deriving DecidableEq, Repr

/-- JavaScript truthiness of an optional string (absent and empty are falsy). -/
def truthyStr : Option String → Bool
  | some s => s != ""
  | none => false

/-- JavaScript truthiness of an optional number (absent and zero are falsy). -/
def truthyInt : Option Int → Bool
  | some n => n != 0
  | none => false

/-- The validation in `renewAuthToken`:
`!loadedAuthToken || !loadedExpiresIn` throws.  Note this only requires the
lifetime to be truthy (nonzero), not positive. -/
def validAuthData (d : AuthData) : Bool :=
  truthyStr d.access_token && truthyInt d.expires_in

/-- The body of the `try`/`catch` of `renewAuthToken` in the current source,
after the guards have passed.  `netResp` is the outcome of
`networkRetry.execute` around the token-endpoint POST.  On success the three
credential fields are assigned together and the next proactive refresh is
scheduled at `expires_in - 300` seconds; on any failure the catch block
schedules a retry 30 seconds out and returns `undefined` (modelled as
`Except.ok none` — the error is not rethrown). -/
def renewSession (st : MgrState) (now : Int)
    (netResp : Except ExecErr AuthData) :
    MgrState × Except ExecErr (Option String) :=
  if st.refreshToken = "" then
    (scheduleBackgroundRefresh st now 30, .ok none)
  else
    match netResp with
    | .error _ => (scheduleBackgroundRefresh st now 30, .ok none)
    | .ok d =>
        if validAuthData d = true then
          let tok := d.access_token.getD ""
          let expIn := d.expires_in.getD 0
          let st1 := { st with authToken := tok,
                               refreshToken := d.refresh_token.getD st.refreshToken,
                               expiration := now + expIn }
          (scheduleBackgroundRefresh st1 now (expIn - 300), .ok (some tok))
        else
          (scheduleBackgroundRefresh st now 30, .ok none)

/-- `renewAuthToken` of the current source as a sequential step (the
`refreshInProgress` interleaving is modelled separately below): the 30-second
debounce returns the existing token; otherwise the attempt time is recorded,
the pending background timer is cancelled, and the session body runs. -/
def renewAuthToken (st : MgrState) (now : Int)
    (netResp : Except ExecErr AuthData) :
    MgrState × Except ExecErr (Option String) :=
  if now - st.lastRefreshAttempt < 30 then (st, .ok (some st.authToken))
  else
    renewSession (clearBackgroundRefresh { st with lastRefreshAttempt := now })
      now netResp

/-- The variant `auth-token-refresh.ts` whose catch block rethrows: identical
session body except that both failure paths propagate the error after
scheduling the 30-second background retry.  A missing refresh secret and an
invalid payload are thrown as plain `Error`s. -/
def renewSessionPropagate (st : MgrState) (now : Int)
    (netResp : Except ExecErr AuthData) :
    MgrState × Except ExecErr (Option String) :=
  if st.refreshToken = "" then
    (scheduleBackgroundRefresh st now 30,
      .error (.plain "No refresh token in config file"))
  else
    match netResp with
    | .error e => (scheduleBackgroundRefresh st now 30, .error e)
    | .ok d =>
        if validAuthData d = true then
          let tok := d.access_token.getD ""
          let expIn := d.expires_in.getD 0
          let st1 := { st with authToken := tok,
                               refreshToken := d.refresh_token.getD st.refreshToken,
                               expiration := now + expIn }
          (scheduleBackgroundRefresh st1 now (expIn - 300), .ok (some tok))
        else
          (scheduleBackgroundRefresh st now 30,
            .error (.plain "Invalid token data received from Ecobee API"))

/-- `renewAuthToken` of the propagating variant. -/
def renewAuthTokenPropagate (st : MgrState) (now : Int)
    (netResp : Except ExecErr AuthData) :
    MgrState × Except ExecErr (Option String) :=
  if now - st.lastRefreshAttempt < 30 then (st, .ok (some st.authToken))
  else
    renewSessionPropagate
      (clearBackgroundRefresh { st with lastRefreshAttempt := now }) now netResp

/-- The background-timer callback of the propagating variant:
`this.renewAuthToken().catch(...)` — a rejection is absorbed by the catch
handler (which only logs), so the callback itself never fails. -/
def backgroundRenewPropagate (st : MgrState) (now : Int)
    (netResp : Except ExecErr AuthData) : MgrState × Option (Option String) :=
  match renewAuthTokenPropagate st now netResp with
  | (st1, .ok v) => (st1, some v)
  | (st1, .error _) => (st1, none)

/-- A manager freshly constructed at time 0 with a configured refresh secret. -/
def mgr0 : MgrState := mkMgrState 0 "refresh-secret"

/-- A token-endpoint payload with a negative lifetime: `expires_in = -100` is
truthy, so it passes the validation. -/
def badAuthData : AuthData := ⟨some "tok", some (-100), none⟩

/-- Claim C7, counterexample: the validation only checks that the returned
lifetime is truthy (nonzero), not positive.  A renewal whose payload carries
`expires_in = -100` is accepted, reaching a state where `accessToken` is set
while `expiresAt` lies in the past. -/
theorem renew_negative_lifetime_cex :
    validAuthData badAuthData = true ∧
    (renewAuthToken mgr0 1000 (.ok badAuthData)).1.authToken = "tok" ∧
    (renewAuthToken mgr0 1000 (.ok badAuthData)).1.expiration = 900 ∧
    ((900 : Int) < 1000) := by
  exact ⟨by decide, by decide, by decide, by decide⟩

/-- Case analysis of the session body: the credential triple is either left
exactly as it was (every failure path), or all three fields are replaced
together by the validated payload. -/
theorem renewSession_triple (st : MgrState) (now : Int)
    (r : Except ExecErr AuthData) :
    ((renewSession st now r).1.authToken = st.authToken ∧
      (renewSession st now r).1.refreshToken = st.refreshToken ∧
      (renewSession st now r).1.expiration = st.expiration) ∨
    (∃ d, r = .ok d ∧ validAuthData d = true ∧
      (renewSession st now r).1.authToken = d.access_token.getD "" ∧
      (renewSession st now r).1.refreshToken = d.refresh_token.getD st.refreshToken ∧
      (renewSession st now r).1.expiration = now + d.expires_in.getD 0) := by
  unfold renewSession
  by_cases hrt : st.refreshToken = ""
  · rw [if_pos hrt]
    exact Or.inl ⟨rfl, rfl, rfl⟩
  · rw [if_neg hrt]
    cases r with
    | error e => exact Or.inl ⟨rfl, rfl, rfl⟩
    | ok d =>
        dsimp only
        by_cases hv : validAuthData d = true
        · rw [if_pos hv]
          exact Or.inr ⟨d, rfl, hv, rfl, rfl, rfl⟩
        · rw [if_neg hv]
          exact Or.inl ⟨rfl, rfl, rfl⟩

/-- Claim C7, amended: the credential triple is updated atomically — on every
renewal attempt either all three of `accessToken`, `refreshSecret`,
`expiresAt` are replaced together by a payload that passed the (truthiness)
validation, or all three are left exactly as they were; and whenever the
returned lifetime is in fact positive, a non-skipped renewal that accepts a
payload leaves the expiry strictly in the future.  The validation itself only
rejects an absent or zero lifetime, not a negative one. -/
theorem credential_update_atomic :
    (∀ (st : MgrState) (now : Int) (r : Except ExecErr AuthData),
      ((renewAuthToken st now r).1.authToken = st.authToken ∧
        (renewAuthToken st now r).1.refreshToken = st.refreshToken ∧
        (renewAuthToken st now r).1.expiration = st.expiration) ∨
      (∃ d, r = .ok d ∧ validAuthData d = true ∧
        (renewAuthToken st now r).1.authToken = d.access_token.getD "" ∧
        (renewAuthToken st now r).1.refreshToken =
          d.refresh_token.getD st.refreshToken ∧
        (renewAuthToken st now r).1.expiration = now + d.expires_in.getD 0)) ∧
    (∀ (st : MgrState) (now : Int) (d : AuthData),
      validAuthData d = true → 0 < d.expires_in.getD 0 →
      (renewAuthToken st now (.ok d)).1.expiration = st.expiration ∨
      now < (renewAuthToken st now (.ok d)).1.expiration) := by
  constructor
  · intro st now r
    unfold renewAuthToken
    by_cases hdeb : now - st.lastRefreshAttempt < 30
    · rw [if_pos hdeb]
      exact Or.inl ⟨rfl, rfl, rfl⟩
    · rw [if_neg hdeb]
      exact renewSession_triple _ now r
  · intro st now d hv hpos
    unfold renewAuthToken
    by_cases hdeb : now - st.lastRefreshAttempt < 30
    · rw [if_pos hdeb]
      exact Or.inl rfl
    · rw [if_neg hdeb]
      rcases renewSession_triple
          (clearBackgroundRefresh { st with lastRefreshAttempt := now }) now
          (.ok d) with h | ⟨d2, hd2, _, _, _, hexp⟩
    
      · exact Or.inl h.2.2
      · right
        cases hd2
        rw [hexp]
        omega

/-- Witness for the amended C7: a well-formed renewal payload with a one-hour
lifetime applied to the fresh manager. -/
theorem credential_update_atomic_witness :
    (((renewAuthToken mgr0 1000 (.ok ⟨some "tok", some 3600, some "r2"⟩)).1.authToken =
        mgr0.authToken ∧
      (renewAuthToken mgr0 1000 (.ok ⟨some "tok", some 3600, some "r2"⟩)).1.refreshToken =
        mgr0.refreshToken ∧
      (renewAuthToken mgr0 1000 (.ok ⟨some "tok", some 3600, some "r2"⟩)).1.expiration =
        mgr0.expiration) ∨
    (∃ d, (Except.ok d : Except ExecErr AuthData) = .ok ⟨some "tok", some 3600, some "r2"⟩ ∧
      validAuthData d = true ∧
      (renewAuthToken mgr0 1000 (.ok ⟨some "tok", some 3600, some "r2"⟩)).1.authToken =
        d.access_token.getD "" ∧
      (renewAuthToken mgr0 1000 (.ok ⟨some "tok", some 3600, some "r2"⟩)).1.refreshToken =
        d.refresh_token.getD mgr0.refreshToken ∧
      (renewAuthToken mgr0 1000 (.ok ⟨some "tok", some 3600, some "r2"⟩)).1.expiration =
        1000 + d.expires_in.getD 0)) ∧
    ((renewAuthToken mgr0 1000 (.ok ⟨some "tok", some 3600, some "r2"⟩)).1.expiration =
        mgr0.expiration ∨
      1000 < (renewAuthToken mgr0 1000 (.ok ⟨some "tok", some 3600, some "r2"⟩)).1.expiration) := by
  constructor
  · have h := credential_update_atomic.1 mgr0 1000 (.ok ⟨some "tok", some 3600, some "r2"⟩)
    rcases h with h | ⟨d, hd, hrest⟩
    · exact Or.inl h
    · exact Or.inr ⟨d, by rw [← hd], hrest⟩
  · exact credential_update_atomic.2 mgr0 1000 ⟨some "tok", some 3600, some "r2"⟩
      (by decide) (by decide)

/-- Claim C10, counterexample: in the current source a caller-triggered renewal
that fails does not propagate the failure — the catch block returns
`undefined` (modelled `Except.ok none`) after scheduling the 30-second
background retry. -/
theorem renew_failure_swallowed_cex :
    (renewAuthToken mgr0 1000 (.error (.plain "network down"))).2 =
      Except.ok none ∧
    (renewAuthToken mgr0 1000 (.error (.plain "network down"))).1.timers =
      [⟨0, 1030⟩] := by
  exact ⟨rfl, rfl⟩

/-- In the rethrowing variant a non-debounced failed renewal propagates the
error to the caller after scheduling the 30-second background retry. -/
theorem renewPropagate_error (st : MgrState) (now : Int) (e : ExecErr)
    (hdeb : 30 ≤ now - st.lastRefreshAttempt) (hrt : st.refreshToken ≠ "") :
    (renewAuthTokenPropagate st now (.error e)).2 = Except.error e ∧
    ∃ t, t ∈ (renewAuthTokenPropagate st now (.error e)).1.timers ∧
      (renewAuthTokenPropagate st now (.error e)).1.bgHandle = some t.id ∧
      t.fireAt = now + 30 := by
  have hrt2 : (clearBackgroundRefresh
      { st with lastRefreshAttempt := now }).refreshToken ≠ "" := hrt
  unfold renewAuthTokenPropagate
  rw [if_neg (by omega)]
  unfold renewSessionPropagate
  rw [if_neg hrt2]
  exact ⟨rfl, ⟨_, List.mem_append_right _ (List.mem_singleton.mpr rfl),
    rfl, rfl⟩⟩

/-- Claim C10, amended: in the current source a failed renewal schedules the
30-second background retry and swallows the error for caller and background
triggers alike (the caller receives `undefined`); only in the rethrowing
variant does a caller-triggered renewal propagate the failure, while its
background timer callback still absorbs it through its catch handler. -/
theorem renew_failure_propagation :
    (∀ (st : MgrState) (now : Int) (e : ExecErr),
      30 ≤ now - st.lastRefreshAttempt →
      (renewAuthToken st now (.error e)).2 = Except.ok none ∧
      ∃ t, t ∈ (renewAuthToken st now (.error e)).1.timers ∧
        (renewAuthToken st now (.error e)).1.bgHandle = some t.id ∧
        t.fireAt = now + 30) ∧
    (∀ (st : MgrState) (now : Int) (e : ExecErr),
      30 ≤ now - st.lastRefreshAttempt → st.refreshToken ≠ "" →
      (renewAuthTokenPropagate st now (.error e)).2 = Except.error e ∧
      ∃ t, t ∈ (renewAuthTokenPropagate st now (.error e)).1.timers ∧
        (renewAuthTokenPropagate st now (.error e)).1.bgHandle = some t.id ∧
        t.fireAt = now + 30) ∧
    (∀ (st : MgrState) (now : Int) (e : ExecErr),
      30 ≤ now - st.lastRefreshAttempt → st.refreshToken ≠ "" →
      (backgroundRenewPropagate st now (.error e)).2 = none ∧
      (backgroundRenewPropagate st now (.error e)).1 =
        (renewAuthTokenPropagate st now (.error e)).1) := by
  refine ⟨?_, renewPropagate_error, ?_⟩
  · intro st now e hdeb
    unfold renewAuthToken
    rw [if_neg (by omega)]
    unfold renewSession
    by_cases hrt : (clearBackgroundRefresh
        { st with lastRefreshAttempt := now }).refreshToken = ""
    · rw [if_pos hrt]
      exact ⟨rfl, ⟨_, List.mem_append_right _ (List.mem_singleton.mpr rfl),
        rfl, rfl⟩⟩
    · rw [if_neg hrt]
      exact ⟨rfl, ⟨_, List.mem_append_right _ (List.mem_singleton.mpr rfl),
        rfl, rfl⟩⟩
  · intro st now e hdeb hrt
    have h2 := (renewPropagate_error st now e hdeb hrt).1
    unfold backgroundRenewPropagate
    rcases hp : renewAuthTokenPropagate st now (.error e) with ⟨st1, r⟩
    rw [hp] at h2
    simp only at h2
    subst h2
    exact ⟨rfl, rfl⟩

/-- Witness for the amended C10 at the fresh manager and a plain network
error. -/
theorem renew_failure_propagation_witness :
    ((30 : Int) ≤ 1000 - mgr0.lastRefreshAttempt ∧ mgr0.refreshToken ≠ "") ∧
    ((renewAuthToken mgr0 1000 (.error (.plain "boom"))).2 = Except.ok none ∧
      ∃ t, t ∈ (renewAuthToken mgr0 1000 (.error (.plain "boom"))).1.timers ∧
        (renewAuthToken mgr0 1000 (.error (.plain "boom"))).1.bgHandle = some t.id ∧
        t.fireAt = 1000 + 30) ∧
    ((renewAuthTokenPropagate mgr0 1000 (.error (.plain "boom"))).2 =
        Except.error (.plain "boom") ∧
      ∃ t, t ∈ (renewAuthTokenPropagate mgr0 1000 (.error (.plain "boom"))).1.timers ∧
        (renewAuthTokenPropagate mgr0 1000 (.error (.plain "boom"))).1.bgHandle =
          some t.id ∧
        t.fireAt = 1000 + 30) ∧
    ((backgroundRenewPropagate mgr0 1000 (.error (.plain "boom"))).2 = none ∧
      (backgroundRenewPropagate mgr0 1000 (.error (.plain "boom"))).1 =
        (renewAuthTokenPropagate mgr0 1000 (.error (.plain "boom"))).1) :=
  ⟨⟨by decide, by decide⟩,
    renew_failure_propagation.1 mgr0 1000 (.plain "boom") (by decide),
    renew_failure_propagation.2.1 mgr0 1000 (.plain "boom") (by decide) (by decide),
    renew_failure_propagation.2.2 mgr0 1000 (.plain "boom") (by decide) (by decide)⟩

/-- Claim C6, counterexample: the current `auth-token-refresh.ts` has no
rate-limit state at all — after a renewal fails with HTTP 429 it schedules the
background retry 30 seconds out, not at the end of a 5-minute back-off
window. -/
theorem renew_429_schedules_30s_cex :
    (renewAuthToken mgr0 1000 (.error err429)).1.timers = [⟨0, 1030⟩] ∧
    (renewAuthToken mgr0 1000 (.error err429)).2 = Except.ok none ∧
    (1030 : Int) ≠ 1000 + 300 := by
  exact ⟨rfl, rfl, by decide⟩

/-! ## AuthTokenManager (rate-limit-aware variant): state and operations. -/

/-- The state of the rate-limit-aware `AuthTokenManager` variant, which adds the
`rateLimitedUntil` back-off deadline. -/
structure MgrRLState where
  authToken : String
  refreshToken : String
  expiration : Int
  lastRefreshAttempt : Int
  rateLimitedUntil : Option Int
  timers : List TimerEntry
  bgHandle : Option Nat
  nextTimerId : Nat
deriving DecidableEq, Repr

/-- Constructor state of the rate-limit-aware manager. -/
def mkMgrRLState (constructedAt : Int) (configRefreshToken : String) :
    MgrRLState :=
  ⟨"", configRefreshToken, constructedAt, 0, none, [], none, 0⟩

/-- The `NetworkRetry` policy the rate-limit-aware manager constructs:
5 attempts, 30-second initial delay, 2-minute cap. -/
def authRetryPolicyRL : RetryPolicy :=
  mkRetryPolicy (some 270) (some 5) (some 30000) (some 120000) (some 2)

/-- The guard `this.rateLimitedUntil && moment().isBefore(this.rateLimitedUntil)`:
a back-off is active when the deadline is set and lies strictly in the
future. -/
def rlBackoffActive (st : MgrRLState) (now : Int) : Bool :=
  match st.rateLimitedUntil with
  | some r => decide (now < r)
  | none => false

/-- `isExpired` of the rate-limit-aware variant: `false` during an active
rate-limit back-off; otherwise token empty or
`now + 300 > expiration` (strict). -/
def isExpiredRL (st : MgrRLState) (now : Int) : Bool :=
  if rlBackoffActive st now then false
  else st.authToken == "" || decide (st.expiration < now + 300)

/-- `clearBackgroundRefresh` of the rate-limit-aware variant. -/
def clearBackgroundRefreshRL (st : MgrRLState) : MgrRLState :=
  { st with timers := st.timers.filter (fun t => some t.id != st.bgHandle),
            bgHandle := none }

/-- `scheduleBackgroundRefresh` of the rate-limit-aware variant: clear first,
then register a fresh timer. -/
def scheduleBackgroundRefreshRL (st : MgrRLState) (now delaySec : Int) :
    MgrRLState :=
  let st1 := clearBackgroundRefreshRL st
  { st1 with timers := st1.timers ++ [⟨st1.nextTimerId, now + delaySec⟩],
             bgHandle := some st1.nextTimerId,
             nextTimerId := st1.nextTimerId + 1 }

/-- The catch block of the rate-limit-aware `renewAuthToken`: on HTTP 429 set
`rateLimitedUntil` five minutes (300 s) out and schedule the retry at exactly
that deadline; otherwise, if the error is not a recognized network error,
schedule a one-minute retry; a recognized transient network error schedules
nothing (the cleared timer is not replaced).  The result is `undefined`. -/
def rlCatch (st : MgrRLState) (now : Int) (e : ExecErr) :
    MgrRLState × Option String :=
  if is429 e then
    (scheduleBackgroundRefreshRL { st with rateLimitedUntil := some (now + 300) }
      now 300, none)
  else if isRetryableErrorRL authRetryPolicyRL e then (st, none)
  else (scheduleBackgroundRefreshRL st now 60, none)

/-- The `try`/`catch` body of the rate-limit-aware `renewAuthToken` after the
guards: on success the credential triple is replaced, the next proactive
refresh scheduled at `expires_in - 300` seconds, and the rate-limit deadline
cleared; every failure goes through the catch block. -/
def renewSessionRL (st : MgrRLState) (now : Int)
    (netResp : Except ExecErr AuthData) : MgrRLState × Option String :=
  if st.refreshToken = "" then
    rlCatch st now (.plain "No refresh token in config file")
  else
    match netResp with
    | .error e => rlCatch st now e
    | .ok d =>
        if validAuthData d = true then
          let tok := d.access_token.getD ""
          let expIn := d.expires_in.getD 0
          let st1 := { st with authToken := tok,
                               refreshToken := d.refresh_token.getD st.refreshToken,
                               expiration := now + expIn }
          let st2 := scheduleBackgroundRefreshRL st1 now (expIn - 300)
          ({ st2 with rateLimitedUntil := none }, some tok)
        else rlCatch st now (.plain "Invalid token data received from Ecobee API")

/-- `renewAuthToken` of the rate-limit-aware variant as a sequential step: an
active rate-limit back-off or the 60-second debounce returns the existing
token without a network call; otherwise the attempt is recorded, the pending
timer cancelled, and the session body runs. -/
def renewAuthTokenRL (st : MgrRLState) (now : Int)
    (netResp : Except ExecErr AuthData) : MgrRLState × Option String :=
  if rlBackoffActive st now then (st, some st.authToken)
  else if now - st.lastRefreshAttempt < 60 then (st, some st.authToken)
  else
    renewSessionRL (clearBackgroundRefreshRL { st with lastRefreshAttempt := now })
      now netResp

/-- Modelled from the spec wording for claim C5: `isExpired()` returns true iff
no active rate-limit back-off is in effect AND (the token is empty OR
`now + 300 >= expiresAt`, non-strict). -/
def isExpiredClaimPred (st : MgrRLState) (now : Int) : Bool :=
  !(rlBackoffActive st now) &&
    (st.authToken == "" || decide (st.expiration ≤ now + 300))

/-- A manager state holding a token that expires at time 1000, with no active
back-off. -/
def rlBoundarySt : MgrRLState := ⟨"tok", "refresh-secret", 1000, 0, none, [], none, 0⟩

/-- Claim C5, counterexample: at the exact boundary `now + 300 = expiresAt`
(here `now = 700`, `expiresAt = 1000`) the claimed non-strict condition holds,
but the source uses the strict `moment().add(300).isAfter(expiration)`, so
`isExpired` still returns false. -/
theorem isExpired_boundary_cex :
    isExpiredRL rlBoundarySt 700 = false ∧
    isExpiredClaimPred rlBoundarySt 700 = true := by
  exact ⟨by decide, by decide⟩

/-- Claim C5, amended: for every manager state and time, `isExpired()` returns
true iff no rate-limit back-off is active AND (the token is the empty string OR
`now + 300 > expiresAt`, strictly); in particular it returns false during an
active back-off even if the token is stale, and becomes true only strictly
after `expiresAt - 300`. -/
theorem isExpiredRL_iff (st : MgrRLState) (now : Int) :
    isExpiredRL st now = true ↔
      rlBackoffActive st now = false ∧
      (st.authToken = "" ∨ st.expiration < now + 300) := by
  unfold isExpiredRL
  by_cases hb : rlBackoffActive st now
  · simp [hb]
  · simp only [Bool.not_eq_true] at hb
    simp [hb, Bool.or_eq_true, beq_iff_eq, decide_eq_true_eq]

/-- Claim C6, amended: in the rate-limit-aware variant, a renewal attempt that
passes the guards and fails with HTTP 429 sets the back-off deadline to
exactly 5 minutes (300 s) from now, schedules the single background retry to
fire at exactly that deadline, and leaves the access token, refresh secret and
expiry unchanged.  (The current named source has no rate-limit state and
schedules a 30-second retry instead.) -/
theorem renewRL_rate_limit_backoff (st : MgrRLState) (now : Int) (e : ExecErr)
    (h429 : is429 e = true) (hb : rlBackoffActive st now = false)
    (hdeb : 60 ≤ now - st.lastRefreshAttempt) (hrt : st.refreshToken ≠ "") :
    (renewAuthTokenRL st now (.error e)).1.rateLimitedUntil = some (now + 300) ∧
    (∃ t, t ∈ (renewAuthTokenRL st now (.error e)).1.timers ∧
      (renewAuthTokenRL st now (.error e)).1.bgHandle = some t.id ∧
      t.fireAt = now + 300) ∧
    (renewAuthTokenRL st now (.error e)).1.authToken = st.authToken ∧
    (renewAuthTokenRL st now (.error e)).1.refreshToken = st.refreshToken ∧
    (renewAuthTokenRL st now (.error e)).1.expiration = st.expiration ∧
    (renewAuthTokenRL st now (.error e)).2 = none := by
  have hrt2 : (clearBackgroundRefreshRL
      { st with lastRefreshAttempt := now }).refreshToken ≠ "" := hrt
  unfold renewAuthTokenRL
  rw [if_neg (by simp [hb]), if_neg (by omega)]
  unfold renewSessionRL
  rw [if_neg hrt2]
  dsimp only
  unfold rlCatch
  rw [if_pos h429]
  refine ⟨rfl, ⟨_, List.mem_append_right _ (List.mem_singleton.mpr rfl),
    rfl, rfl⟩, rfl, rfl, rfl, rfl⟩

/-- Witness for the amended C6: the fresh rate-limit-aware manager hit by a
429 at time 1000. -/
theorem renewRL_rate_limit_backoff_witness :
    (is429 err429 = true ∧
      rlBackoffActive (mkMgrRLState 0 "refresh-secret") 1000 = false ∧
      (60 : Int) ≤ 1000 - (mkMgrRLState 0 "refresh-secret").lastRefreshAttempt ∧
      (mkMgrRLState 0 "refresh-secret").refreshToken ≠ "") ∧
    (renewAuthTokenRL (mkMgrRLState 0 "refresh-secret") 1000
        (.error err429)).1.rateLimitedUntil = some (1000 + 300) ∧
    (∃ t, t ∈ (renewAuthTokenRL (mkMgrRLState 0 "refresh-secret") 1000
        (.error err429)).1.timers ∧
      (renewAuthTokenRL (mkMgrRLState 0 "refresh-secret") 1000
        (.error err429)).1.bgHandle = some t.id ∧
      t.fireAt = 1000 + 300) ∧
    (renewAuthTokenRL (mkMgrRLState 0 "refresh-secret") 1000
        (.error err429)).1.authToken = (mkMgrRLState 0 "refresh-secret").authToken ∧
    (renewAuthTokenRL (mkMgrRLState 0 "refresh-secret") 1000
        (.error err429)).1.refreshToken =
      (mkMgrRLState 0 "refresh-secret").refreshToken ∧
    (renewAuthTokenRL (mkMgrRLState 0 "refresh-secret") 1000
        (.error err429)).1.expiration = (mkMgrRLState 0 "refresh-secret").expiration ∧
    (renewAuthTokenRL (mkMgrRLState 0 "refresh-secret") 1000
        (.error err429)).2 = none :=
  ⟨⟨by decide, by decide, by decide, by decide⟩,
    renewRL_rate_limit_backoff (mkMgrRLState 0 "refresh-secret") 1000 err429
      (by decide) (by decide) (by decide) (by decide)⟩

/-! ## Pending-timer invariant (C9) -/

/-- An externally triggered manager operation: a caller-triggered renewal
attempt, or the pending background timer firing (which consumes the timer and
runs a renewal).  The attached response is the outcome of the network call the
renewal would make; success with a valid payload, success with an invalid
payload, transient network failure, HTTP 429 and plain errors are all
representable. -/
inductive MgrOp where
  | renew (now : Int) (resp : Except ExecErr AuthData)
  | fire (now : Int) (resp : Except ExecErr AuthData)

/-- Apply one operation to the rate-limit-aware manager state. -/
def applyMgrOp (st : MgrRLState) : MgrOp → MgrRLState
  | .renew now resp => (renewAuthTokenRL st now resp).1
  | .fire now resp =>
      match st.timers with
      | [] => st
      | _ :: rest => (renewAuthTokenRL { st with timers := rest } now resp).1

/-- The timer invariant: at most one live timer, and every live timer is the
one the stored handle refers to. -/
def TimerInv (st : MgrRLState) : Prop :=
  st.timers.length ≤ 1 ∧ ∀ t ∈ st.timers, st.bgHandle = some t.id

/-- Under the handle-consistency invariant, `clearBackgroundRefresh` cancels
every live timer. -/
theorem clearRL_timers (st : MgrRLState)
    (h : ∀ t ∈ st.timers, st.bgHandle = some t.id) :
    (clearBackgroundRefreshRL st).timers = [] := by
  unfold clearBackgroundRefreshRL
  dsimp only
  rw [List.filter_eq_nil_iff]
  intro t ht
  rw [h t ht]
  simp

/-- Scheduling always reestablishes the timer invariant with exactly one
pending timer. -/
theorem scheduleRL_inv (st : MgrRLState) (now d : Int) (h : TimerInv st) :
    TimerInv (scheduleBackgroundRefreshRL st now d) ∧
      (scheduleBackgroundRefreshRL st now d).timers.length = 1 := by
  have hc := clearRL_timers st h.2
  unfold scheduleBackgroundRefreshRL
  refine ⟨⟨?_, ?_⟩, ?_⟩
  · dsimp only
    rw [hc]
    simp
  · intro t ht
    dsimp only at ht ⊢
    rw [hc] at ht
    simp at ht
    rw [ht]
  · dsimp only
    rw [hc]
    simp

/-- The catch block preserves the timer invariant. -/
theorem rlCatch_inv (st : MgrRLState) (now : Int) (e : ExecErr)
    (h : TimerInv st) : TimerInv (rlCatch st now e).1 := by
  unfold rlCatch
  by_cases h4 : is429 e = true
  · rw [if_pos h4]
    exact (scheduleRL_inv { st with rateLimitedUntil := some (now + 300) } now 300
      ⟨h.1, h.2⟩).1
  · rw [if_neg h4]
    by_cases hr : isRetryableErrorRL authRetryPolicyRL e = true
    · rw [if_pos hr]
      exact h
    · rw [if_neg hr]
      exact (scheduleRL_inv st now 60 h).1

/-- The session body preserves the timer invariant. -/
theorem renewSessionRL_inv (st : MgrRLState) (now : Int)
    (r : Except ExecErr AuthData) (h : TimerInv st) :
    TimerInv (renewSessionRL st now r).1 := by
  unfold renewSessionRL
  by_cases hrt : st.refreshToken = ""
  · rw [if_pos hrt]
    exact rlCatch_inv st now _ h
  · rw [if_neg hrt]
    cases r with
    | error e => exact rlCatch_inv st now e h
    | ok d =>
        dsimp only
        by_cases hv : validAuthData d = true
        · rw [if_pos hv]
          have hs := (scheduleRL_inv
            { st with authToken := d.access_token.getD "",
                      refreshToken := d.refresh_token.getD st.refreshToken,
                      expiration := now + d.expires_in.getD 0 } now
            (d.expires_in.getD 0 - 300) ⟨h.1, h.2⟩).1
          exact ⟨hs.1, hs.2⟩
        · rw [if_neg hv]
          exact rlCatch_inv st now _ h

/-- A full renewal attempt preserves the timer invariant. -/
theorem renewRL_inv (st : MgrRLState) (now : Int)
    (r : Except ExecErr AuthData) (h : TimerInv st) :
    TimerInv (renewAuthTokenRL st now r).1 := by
  unfold renewAuthTokenRL
  by_cases hb : rlBackoffActive st now = true
  · rw [if_pos hb]
    exact h
  · rw [if_neg hb]
    by_cases hd : now - st.lastRefreshAttempt < 60
    · rw [if_pos hd]
      exact h
    · rw [if_neg hd]
      refine renewSessionRL_inv _ now r ?_
      have hc := clearRL_timers { st with lastRefreshAttempt := now } h.2
      refine ⟨?_, ?_⟩
      · rw [hc]
        simp
      · intro t ht
        rw [hc] at ht
        simp at ht

/-- Every externally triggered operation preserves the timer invariant. -/
theorem applyMgrOp_inv (st : MgrRLState) (op : MgrOp) (h : TimerInv st) :
    TimerInv (applyMgrOp st op) := by
  cases op with
  | renew now resp => exact renewRL_inv st now resp h
  | fire now resp =>
      unfold applyMgrOp
      cases htm : st.timers with
      | nil => exact h
      | cons t rest =>
          refine renewRL_inv _ now resp ⟨?_, ?_⟩
          · have h1 := h.1
            rw [htm] at h1
            simp only [List.length_cons] at h1
            show rest.length ≤ 1
            omega
          · intro u hu
            exact h.2 u (by rw [htm]; exact List.mem_cons_of_mem t hu)

/-- Claim C9: starting from the constructor state, after any sequence of
caller-triggered renewals and timer firings — with successful, failed and
rate-limited outcomes freely mixed — at most one pending background renewal
timer exists, because every scheduling operation first cancels the previous
timer. -/
theorem pending_timer_at_most_one (constructedAt : Int) (tok : String)
    (ops : List MgrOp) :
    (List.foldl applyMgrOp (mkMgrRLState constructedAt tok) ops).timers.length ≤ 1 := by
  suffices h : ∀ (ops : List MgrOp) (st : MgrRLState), TimerInv st →
      TimerInv (List.foldl applyMgrOp st ops) by
    exact (h ops (mkMgrRLState constructedAt tok)
      ⟨by simp [mkMgrRLState], by simp [mkMgrRLState]⟩).1
  intro ops
  induction ops with
  | nil => intro st h; exact h
  | cons op rest ih =>
      intro st h
      exact ih (applyMgrOp st op) (applyMgrOp_inv st op h)

/-! ## Interleaving model of concurrent `renewAuthToken` calls (C1).

Each caller of `renewAuthToken` is a coroutine; the JavaScript event loop runs
the code between two `await`s atomically.  The synchronous prologue of
`renewAuthToken` (the `refreshInProgress` check, the debounce check, and —
when a renewal starts — setting the flag, recording the attempt time, clearing
the timer and dispatching the network call) is one atomic step; one iteration
of the busy-wait loop of a waiting caller is one step; the resumption after
the network call resolves (field updates, scheduling, releasing the flag in
the `finally`) is one step.  Time passes only in explicit `tick` steps. -/

/-- The observable phase of one caller. -/
inductive CallerPhase where
  | idle
  | waiting
  | calling
  | done (r : Option String)
deriving DecidableEq, Repr

/-- Global state: the clock, the manager, each caller phase, and the number of
renewal sessions dispatched to the network. -/
structure SysState (n : Nat) where
  now : Int
  mgr : MgrState
  callers : Fin n → CallerPhase
  sessions : Nat

/-- One scheduler event: time passing, a caller entering `renewAuthToken`, a
waiting caller polling the flag, or the in-flight renewal resolving with the
given network outcome. -/
inductive SysLab (n : Nat) where
  | tick (d : Nat)
  | invoke (i : Fin n)
  | poll (i : Fin n)
  | finish (i : Fin n) (resp : Except ExecErr AuthData)

/-- The small-step transition function; `none` when the event is not enabled
in the given state. -/
def sysStep {n : Nat} (s : SysState n) : SysLab n → Option (SysState n)
  | .tick d => some { s with now := s.now + (d : Int) }
  | .invoke i =>
      match s.callers i with
      | .idle =>
          if s.mgr.refreshInProgress then
            some { s with callers := Function.update s.callers i .waiting }
          else if s.now - s.mgr.lastRefreshAttempt < 30 then
            some { s with
              callers :=
                Function.update s.callers i (.done (some s.mgr.authToken)) }
          else
            let m1 := clearBackgroundRefresh
              { s.mgr with refreshInProgress := true,
                           lastRefreshAttempt := s.now }
            if m1.refreshToken = "" then
              some { s with
                mgr := { scheduleBackgroundRefresh m1 s.now 30 with
                  refreshInProgress := false },
                callers := Function.update s.callers i (.done none) }
            else
              some { s with
                mgr := m1,
                callers := Function.update s.callers i .calling,
                sessions := s.sessions + 1 }
      | _ => none
  | .poll i =>
      match s.callers i with
      | .waiting =>
          if s.mgr.refreshInProgress then some s
          else
            some { s with
              callers :=
                Function.update s.callers i (.done (some s.mgr.authToken)) }
      | _ => none
  | .finish i resp =>
      match s.callers i with
      | .calling =>
          let res := renewSession s.mgr s.now resp
          some { s with
            mgr := { res.1 with refreshInProgress := false },
            callers := Function.update s.callers i
              (.done (match res.2 with | .ok v => v | .error _ => none)) }
      | _ => none

/-- Run a list of events from a state; fails when an event is not enabled. -/
def sysRun {n : Nat} (s : SysState n) : List (SysLab n) → Option (SysState n)
  | [] => some s
  | l :: ls =>
      match sysStep s l with
      | some s1 => sysRun s1 ls
      | none => none

/-- Mutual exclusion invariant: a caller is inside the renewal session only
while the flag is set, and at most one caller is inside it. -/
def CallExcl {n : Nat} (s : SysState n) : Prop :=
  (∀ i, s.callers i = .calling → s.mgr.refreshInProgress = true) ∧
  (∀ i j, s.callers i = .calling → s.callers j = .calling → i = j)

/-- Updating a caller to a non-calling phase: any caller found calling
afterwards was already calling and is a different index. -/
theorem update_calling {n : Nat} (f : Fin n → CallerPhase) (i : Fin n)
    (v : CallerPhase) (hv : v ≠ .calling) (j : Fin n)
    (hj : Function.update f i v j = .calling) : f j = .calling ∧ j ≠ i := by
  rcases eq_or_ne j i with rfl | hne
  · rw [Function.update_same] at hj
    exact absurd hj hv
  · rw [Function.update_noteq hne] at hj
    exact ⟨hj, hne⟩

/-- One step preserves mutual exclusion. -/
theorem sysStep_excl {n : Nat} (s s' : SysState n) (l : SysLab n)
    (h : CallExcl s) (hs : sysStep s l = some s') : CallExcl s' := by
  cases l with
  | tick d =>
      simp only [sysStep] at hs
      cases hs
      exact h
  | invoke i =>
      simp only [sysStep] at hs
      cases hci : s.callers i with
      | idle =>
          rw [hci] at hs
          by_cases hip : s.mgr.refreshInProgress
          · rw [if_pos hip] at hs
            cases hs
            refine ⟨?_, ?_⟩
            · intro j hj
              exact h.1 j (update_calling s.callers i _ (by simp) j hj).1
            · intro j k hj hk
              exact h.2 j k (update_calling s.callers i _ (by simp) j hj).1
                (update_calling s.callers i _ (by simp) k hk).1
          · rw [if_neg hip] at hs
            by_cases hdeb : s.now - s.mgr.lastRefreshAttempt < 30
            · rw [if_pos hdeb] at hs
              cases hs
              refine ⟨?_, ?_⟩
              · intro j hj
                exact h.1 j (update_calling s.callers i _ (by simp) j hj).1
              · intro j k hj hk
                exact h.2 j k (update_calling s.callers i _ (by simp) j hj).1
                  (update_calling s.callers i _ (by simp) k hk).1
            · rw [if_neg hdeb] at hs
              by_cases hrt : (clearBackgroundRefresh
                  { s.mgr with refreshInProgress := true,
                               lastRefreshAttempt := s.now }).refreshToken = ""
              · rw [if_pos hrt] at hs
                cases hs
                refine ⟨?_, ?_⟩
                · intro j hj
                  have hold := (update_calling s.callers i _ (by simp) j hj).1
                  have := h.1 j hold
                  exact absurd this (by simpa using hip)
                · intro j k hj hk
                  have hold := (update_calling s.callers i _ (by simp) j hj).1
                  have := h.1 j hold
                  exact absurd this (by simpa using hip)
              · rw [if_neg hrt] at hs
                cases hs
                refine ⟨?_, ?_⟩
                · intro j hj
                  rfl
                · intro j k hj hk
                  have hj2 : Function.update s.callers i CallerPhase.calling j =
                      CallerPhase.calling := hj
                  have hk2 : Function.update s.callers i CallerPhase.calling k =
                      CallerPhase.calling := hk
                  rcases eq_or_ne j i with rfl | hne
                  · rcases eq_or_ne k j with rfl | hnek
                    · rfl
                    · rw [Function.update_noteq hnek] at hk2
                      exact absurd (h.1 k hk2) (by simpa using hip)
                  · rw [Function.update_noteq hne] at hj2
                    exact absurd (h.1 j hj2) (by simpa using hip)
      | waiting => rw [hci] at hs; cases hs
      | calling => rw [hci] at hs; cases hs
      | done r => rw [hci] at hs; cases hs
  | poll i =>
      simp only [sysStep] at hs
      cases hci : s.callers i with
      | waiting =>
          rw [hci] at hs
          by_cases hip : s.mgr.refreshInProgress
          · rw [if_pos hip] at hs
            cases hs
            exact h
          · rw [if_neg hip] at hs
            cases hs
            refine ⟨?_, ?_⟩
            · intro j hj
              exact h.1 j (update_calling s.callers i _ (by simp) j hj).1
            · intro j k hj hk
              exact h.2 j k (update_calling s.callers i _ (by simp) j hj).1
                (update_calling s.callers i _ (by simp) k hk).1
      | idle => rw [hci] at hs; cases hs
      | calling => rw [hci] at hs; cases hs
      | done r => rw [hci] at hs; cases hs
  | finish i resp =>
      simp only [sysStep] at hs
      cases hci : s.callers i with
      | calling =>
          rw [hci] at hs
          cases hs
          refine ⟨?_, ?_⟩
          · intro j hj
            have hold := (update_calling s.callers i _ (by simp) j hj).1
            have hji := (update_calling s.callers i _ (by simp) j hj).2
            exact absurd (h.2 j i hold hci) hji
          · intro j k hj hk
            have hold := (update_calling s.callers i _ (by simp) j hj).1
            have hji := (update_calling s.callers i _ (by simp) j hj).2
            exact absurd (h.2 j i hold hci) hji
      | idle => rw [hci] at hs; cases hs
      | waiting => rw [hci] at hs; cases hs
      | done r => rw [hci] at hs; cases hs

/-- A whole run preserves mutual exclusion. -/
theorem sysRun_excl {n : Nat} :
    ∀ (ls : List (SysLab n)) (s s' : SysState n), CallExcl s →
      sysRun s ls = some s' → CallExcl s' := by
  intro ls
  induction ls with
  | nil =>
      intro s s' h hs
      simp only [sysRun] at hs
      cases hs
      exact h
  | cons l rest ih =>
      intro s s' h hs
      simp only [sysRun] at hs
      cases hstep : sysStep s l with
      | none => rw [hstep] at hs; cases hs
      | some s1 =>
          rw [hstep] at hs
          exact ih s1 s' (sysStep_excl s s1 l h hstep) hs

/-- A step never moves the clock backwards. -/
theorem sysStep_now_mono {n : Nat} (s s' : SysState n) (l : SysLab n)
    (hs : sysStep s l = some s') : s.now ≤ s'.now := by
  cases l with
  | tick d =>
      simp only [sysStep] at hs
      cases hs
      show s.now ≤ s.now + (d : Int)
      omega
  | invoke i =>
      simp only [sysStep] at hs
      cases hci : s.callers i
      case idle =>
          rw [hci] at hs
          by_cases hip : s.mgr.refreshInProgress = true
          · rw [if_pos hip] at hs
            cases hs; exact le_rfl
          · rw [if_neg hip] at hs
            by_cases hdeb : s.now - s.mgr.lastRefreshAttempt < 30
            · rw [if_pos hdeb] at hs
              cases hs; exact le_rfl
            · rw [if_neg hdeb] at hs
              by_cases hrt : (clearBackgroundRefresh
                  { s.mgr with refreshInProgress := true,
                               lastRefreshAttempt := s.now }).refreshToken = ""
              · rw [if_pos hrt] at hs
                cases hs; exact le_rfl
              · rw [if_neg hrt] at hs
                cases hs; exact le_rfl
      all_goals rw [hci] at hs; cases hs
  | poll i =>
      simp only [sysStep] at hs
      cases hci : s.callers i
      case waiting =>
          rw [hci] at hs
          by_cases hip : s.mgr.refreshInProgress = true
          · rw [if_pos hip] at hs
            cases hs; exact le_rfl
          · rw [if_neg hip] at hs
            cases hs; exact le_rfl
      all_goals rw [hci] at hs; cases hs
  | finish i resp =>
      simp only [sysStep] at hs
      cases hci : s.callers i
      case calling =>
          rw [hci] at hs
          cases hs; exact le_rfl
      all_goals rw [hci] at hs; cases hs

/-- A run never moves the clock backwards. -/
theorem sysRun_now_mono {n : Nat} :
    ∀ (ls : List (SysLab n)) (s s' : SysState n),
      sysRun s ls = some s' → s.now ≤ s'.now := by
  intro ls
  induction ls with
  | nil =>
      intro s s' hs
      simp only [sysRun] at hs
      cases hs
      exact le_rfl
  | cons l rest ih =>
      intro s s' hs
      simp only [sysRun] at hs
      cases hstep : sysStep s l with
      | none => rw [hstep] at hs; cases hs
      | some s1 =>
          rw [hstep] at hs
          exact le_trans (sysStep_now_mono s s1 l hstep) (ih s1 s' hs)

/-- The success path of the session body. -/
theorem renewSession_success (st : MgrState) (now : Int) (d : AuthData)
    (hrt : st.refreshToken ≠ "") (hv : validAuthData d = true) :
    renewSession st now (.ok d) =
      (scheduleBackgroundRefresh
        { st with authToken := d.access_token.getD "",
                  refreshToken := d.refresh_token.getD st.refreshToken,
                  expiration := now + d.expires_in.getD 0 } now
        (d.expires_in.getD 0 - 300),
       .ok (some (d.access_token.getD ""))) := by
  unfold renewSession
  rw [if_neg hrt]
  dsimp only
  rw [if_pos hv]

/-- Invariant of the back-to-back scenario after the first caller has started
the single renewal session at time `t0`: the attempt timestamp stays `t0`,
exactly one session has been dispatched, and the system is either still inside
that session (flag set, a unique calling caller, nobody finished yet) or after
it (flag clear, nobody calling, and every finished caller got the current
token). -/
def ScenInv {n : Nat} (t0 : Int) (s : SysState n) : Prop :=
  s.mgr.lastRefreshAttempt = t0 ∧ s.sessions = 1 ∧
  ((s.mgr.refreshInProgress = true ∧ s.mgr.refreshToken ≠ "" ∧
      (∀ j r, s.callers j ≠ CallerPhase.done r) ∧
      (∀ j k, s.callers j = .calling → s.callers k = .calling → j = k)) ∨
   (s.mgr.refreshInProgress = false ∧
      (∀ j, s.callers j ≠ .calling) ∧
      (∀ j r, s.callers j = .done r → r = some s.mgr.authToken)))

/-- One enabled step taken before the debounce window closes, whose network
outcome (if it is the session resolving) is a validated success, preserves the
scenario invariant. -/
theorem scenStep {n : Nat} (t0 : Int) (s s' : SysState n) (l : SysLab n)
    (hI : ScenInv t0 s) (hs : sysStep s l = some s') (hnow : s.now < t0 + 30)
    (hfin : ∀ (j : Fin n) (resp : Except ExecErr AuthData), l = .finish j resp →
      ∃ d, resp = Except.ok d ∧ validAuthData d = true) :
    ScenInv t0 s' := by
  obtain ⟨hlast, hsess, hBC⟩ := hI
  cases l with
  | tick d =>
      simp only [sysStep] at hs
      cases hs
      exact ⟨hlast, hsess, hBC⟩
  | invoke i =>
      simp only [sysStep] at hs
      cases hci : s.callers i
      case idle =>
        rw [hci] at hs
        rcases hBC with ⟨hip, hrt, hnodone, huniq⟩ | ⟨hip, hnocall, hdone⟩
        · rw [if_pos hip] at hs
          cases hs
          refine ⟨hlast, hsess, Or.inl ⟨hip, hrt, ?_, ?_⟩⟩
          · intro j r hj
            have hj2 : Function.update s.callers i CallerPhase.waiting j =
                CallerPhase.done r := hj
            rcases eq_or_ne j i with rfl | hne
            · rw [Function.update_same] at hj2
              cases hj2
            · rw [Function.update_noteq hne] at hj2
              exact hnodone j r hj2
          · intro j k hj hk
            exact huniq j k (update_calling s.callers i _ (by simp) j hj).1
              (update_calling s.callers i _ (by simp) k hk).1
        · rw [if_neg (by simp [hip])] at hs
          rw [if_pos (by rw [hlast]; omega)] at hs
          cases hs
          refine ⟨hlast, hsess, Or.inr ⟨hip, ?_, ?_⟩⟩
          · intro j hj
            exact hnocall j (update_calling s.callers i _ (by simp) j hj).1
          · intro j r hj
            have hj2 : Function.update s.callers i
                (CallerPhase.done (some s.mgr.authToken)) j =
                CallerPhase.done r := hj
            rcases eq_or_ne j i with rfl | hne
            · rw [Function.update_same] at hj2
              injection hj2 with hr
              exact hr.symm
            · rw [Function.update_noteq hne] at hj2
              exact hdone j r hj2
      all_goals rw [hci] at hs; cases hs
  | poll i =>
      simp only [sysStep] at hs
      cases hci : s.callers i
      case waiting =>
        rw [hci] at hs
        rcases hBC with ⟨hip, hrt, hnodone, huniq⟩ | ⟨hip, hnocall, hdone⟩
        · rw [if_pos hip] at hs
          cases hs
          exact ⟨hlast, hsess, Or.inl ⟨hip, hrt, hnodone, huniq⟩⟩
        · rw [if_neg (by simp [hip])] at hs
          cases hs
          refine ⟨hlast, hsess, Or.inr ⟨hip, ?_, ?_⟩⟩
          · intro j hj
            exact hnocall j (update_calling s.callers i _ (by simp) j hj).1
          · intro j r hj
            have hj2 : Function.update s.callers i
                (CallerPhase.done (some s.mgr.authToken)) j =
                CallerPhase.done r := hj
            rcases eq_or_ne j i with rfl | hne
            · rw [Function.update_same] at hj2
              injection hj2 with hr
              exact hr.symm
            · rw [Function.update_noteq hne] at hj2
              exact hdone j r hj2
      all_goals rw [hci] at hs; cases hs
  | finish i resp =>
      simp only [sysStep] at hs
      cases hci : s.callers i
      case calling =>
        rw [hci] at hs
        obtain ⟨d, rfl, hv⟩ := hfin i resp rfl
        rcases hBC with ⟨hip, hrt, hnodone, huniq⟩ | ⟨hip, hnocall, hdone⟩
        · rw [renewSession_success s.mgr s.now d hrt hv] at hs
          cases hs
          refine ⟨hlast, hsess, Or.inr ⟨rfl, ?_, ?_⟩⟩
          · intro j hj
            have hj2 := update_calling s.callers i _ (by simp) j hj
            exact absurd (huniq j i hj2.1 hci) hj2.2
          · intro j r hj
            have hj2 : Function.update s.callers i
                (CallerPhase.done (some (d.access_token.getD ""))) j =
                CallerPhase.done r := hj
            rcases eq_or_ne j i with rfl | hne
            · rw [Function.update_same] at hj2
              injection hj2 with hr
              exact hr.symm
            · rw [Function.update_noteq hne] at hj2
              exact absurd hj2 (hnodone j r)
        · exact absurd hci (hnocall i)
      all_goals rw [hci] at hs; cases hs

/-- A run confined to the debounce window, all of whose finish events carry
validated successes, preserves the scenario invariant. -/
theorem scenRun {n : Nat} (t0 : Int) :
    ∀ (ls : List (SysLab n)) (s s' : SysState n),
      ScenInv t0 s → sysRun s ls = some s' → s'.now < t0 + 30 →
      (∀ (j : Fin n) (resp : Except ExecErr AuthData),
        SysLab.finish j resp ∈ ls →
        ∃ d, resp = Except.ok d ∧ validAuthData d = true) →
      ScenInv t0 s' := by
  intro ls
  induction ls with
  | nil =>
      intro s s' h hs _ _
      simp only [sysRun] at hs
      cases hs
      exact h
  | cons l rest ih =>
      intro s s' h hs hw hf
      simp only [sysRun] at hs
      cases hstep : sysStep s l with
      | none => rw [hstep] at hs; cases hs
      | some s1 =>
          rw [hstep] at hs
          have h1now : s1.now ≤ s'.now := sysRun_now_mono rest s1 s' hs
          have hsnow : s.now ≤ s1.now := sysStep_now_mono s s1 l hstep
          have hI1 := scenStep t0 s s1 l h hstep (by omega)
            (fun j resp hl => hf j resp (by rw [hl]; exact List.mem_cons_self _ _))
          exact ih s1 s' hI1 hs hw
            (fun j resp hm => hf j resp (List.mem_cons_of_mem l hm))

/-- The state of the system right after construction: renewal flag clear,
attempt timestamp at the epoch, a configured refresh secret, no sessions, all
callers outside `renewAuthToken`. -/
def InitSys {n : Nat} (s : SysState n) : Prop :=
  s.mgr.refreshInProgress = false ∧ s.mgr.lastRefreshAttempt = 0 ∧
  s.mgr.refreshToken ≠ "" ∧ s.sessions = 0 ∧
  ∀ i, s.callers i = CallerPhase.idle

/-- Claim C1, amended: (1) renewals are strictly serialized — in every
interleaving starting with the renewal flag clear and no caller inside the
session, at most one caller is ever inside the renewal session at any instant;
(2) when callers invoke `renewAuthToken` back-to-back within the 30-second
debounce window of the first call and the dispatched renewal succeeds with a
validated payload, exactly one renewal session is dispatched to the network
and every caller that has completed received the token of that session.  (When the
renewal fails, the triggering caller receives `undefined` while waiting
callers receive the last-known token — see the counterexample.) -/
theorem renewAuthToken_serialized :
    (∀ (n : Nat) (ls : List (SysLab n)) (s s' : SysState n),
      s.mgr.refreshInProgress = false →
      (∀ i, s.callers i ≠ CallerPhase.calling) →
      sysRun s ls = some s' →
      ∀ i j, s'.callers i = CallerPhase.calling →
        s'.callers j = CallerPhase.calling → i = j) ∧
    (∀ (n : Nat) (i : Fin n) (rest : List (SysLab n)) (s0 s : SysState n),
      InitSys s0 → 30 ≤ s0.now →
      sysRun s0 (SysLab.invoke i :: rest) = some s → s.now < s0.now + 30 →
      (∀ (j : Fin n) (resp : Except ExecErr AuthData),
        SysLab.finish j resp ∈ rest →
        ∃ d, resp = Except.ok d ∧ validAuthData d = true) →
      s.sessions = 1 ∧
        ∀ (j : Fin n) (r : Option String), s.callers j = CallerPhase.done r →
          r = some s.mgr.authToken) := by
  constructor
  · intro n ls s s' hip hnc hrun
    have hexcl : CallExcl s :=
      ⟨fun i hi => absurd hi (hnc i), fun i j hi _ => absurd hi (hnc i)⟩
    exact (sysRun_excl ls s s' hexcl hrun).2
  · intro n i rest s0 s hinit h30 hrun hwin hfin
    obtain ⟨hip0, hlast0, hrt0, hsess0, hidle⟩ := hinit
    have hstep1 : sysStep s0 (SysLab.invoke i) = some
        { s0 with
          mgr := clearBackgroundRefresh
            { s0.mgr with refreshInProgress := true,
                          lastRefreshAttempt := s0.now },
          callers := Function.update s0.callers i CallerPhase.calling,
          sessions := s0.sessions + 1 } := by
      simp only [sysStep, hidle i]
      rw [if_neg (by simp [hip0]), if_neg (by rw [hlast0]; omega),
        if_neg (show ¬((clearBackgroundRefresh
          { s0.mgr with refreshInProgress := true,
                        lastRefreshAttempt := s0.now }).refreshToken = "")
          from hrt0)]
    simp only [sysRun] at hrun
    rw [hstep1] at hrun
    have hI1 : ScenInv s0.now
        ({ s0 with
          mgr := clearBackgroundRefresh
            { s0.mgr with refreshInProgress := true,
                          lastRefreshAttempt := s0.now },
          callers := Function.update s0.callers i CallerPhase.calling,
          sessions := s0.sessions + 1 } : SysState n) := by
      refine ⟨rfl, by rw [hsess0], Or.inl ⟨rfl, hrt0, ?_, ?_⟩⟩
      · intro j r hj
        have hj2 : Function.update s0.callers i CallerPhase.calling j =
            CallerPhase.done r := hj
        rcases eq_or_ne j i with rfl | hne
        · rw [Function.update_same] at hj2
          cases hj2
        · rw [Function.update_noteq hne] at hj2
          rw [hidle j] at hj2
          cases hj2
      · intro j k hj hk
        have hj2 : Function.update s0.callers i CallerPhase.calling j =
            CallerPhase.calling := hj
        have hk2 : Function.update s0.callers i CallerPhase.calling k =
            CallerPhase.calling := hk
        rcases eq_or_ne j i with rfl | hnej
        · rcases eq_or_ne k j with rfl | hnek
          · rfl
          · rw [Function.update_noteq hnek, hidle k] at hk2
            cases hk2
        · rw [Function.update_noteq hnej, hidle j] at hj2
          cases hj2
    have hfinal := scenRun s0.now rest _ s hI1 hrun hwin hfin
    obtain ⟨hlastF, hsessF, hBCF⟩ := hfinal
    refine ⟨hsessF, ?_⟩
    intro j r hj
    rcases hBCF with ⟨_, _, hnodone, _⟩ | ⟨_, _, hdone⟩
    · exact absurd hj (hnodone j r)
    · exact hdone j r hj

/-- A manager that already holds a token, as seen by a concurrent scenario. -/
def cexMgr : MgrState := ⟨"old-token", "refresh-secret", 0, 0, false, [], none, 0⟩

/-- Two idle callers at time 30. -/
def cexS0 : SysState 2 := ⟨30, cexMgr, fun _ => CallerPhase.idle, 0⟩

/-- Caller 0 starts a renewal, caller 1 arrives while it is in flight and
waits, the renewal fails, caller 1 polls and leaves. -/
def cexLabs : List (SysLab 2) :=
  [.invoke 0, .invoke 1, .finish 0 (.error (.plain "network down")), .poll 1]

/-- Claim C1, counterexample: in a back-to-back scenario inside the debounce
window whose single renewal fails, the triggering caller receives `undefined`
while the waiting caller receives the last-known token — the callers do not
all receive the result of the in-progress renewal. -/
theorem renew_waiter_divergent_result_cex :
    (sysRun cexS0 cexLabs).map
        (fun s => (s.callers 0, s.callers 1, s.sessions, s.now)) =
      some (CallerPhase.done none, CallerPhase.done (some "old-token"), 1, 30) ∧
    (none : Option String) ≠ some "old-token" := by
  exact ⟨rfl, by decide⟩

/-- A freshly constructed manager for the witness scenario. -/
def wS0 : SysState 2 := ⟨30, mkMgrState 0 "refresh-secret", fun _ => CallerPhase.idle, 0⟩

/-- A successful token payload for the witness scenario. -/
def wGood : AuthData := ⟨some "new-token", some 3600, some "rotated-secret"⟩

/-- The witness events after the first invoke: a second caller waits, the
renewal succeeds, the waiter polls and leaves. -/
def wRest : List (SysLab 2) := [.invoke 1, .finish 0 (.ok wGood), .poll 1]

/-- Witness for the amended C1: the serialization conclusion on the empty run,
and the back-to-back success scenario with two callers. -/
theorem renewAuthToken_serialized_witness :
    (∀ i j : Fin 2, wS0.callers i = CallerPhase.calling →
      wS0.callers j = CallerPhase.calling → i = j) ∧
    (∃ s : SysState 2, sysRun wS0 (SysLab.invoke 0 :: wRest) = some s ∧
      s.now < wS0.now + 30 ∧ s.sessions = 1 ∧
      ∀ (j : Fin 2) (r : Option String), s.callers j = CallerPhase.done r →
        r = some s.mgr.authToken) := by
  have hinit : InitSys wS0 := ⟨rfl, rfl, by decide, rfl, fun i => rfl⟩
  constructor
  · exact renewAuthToken_serialized.1 2 [] wS0 wS0 rfl (by decide) rfl
  · have hfin : ∀ (j : Fin 2) (resp : Except ExecErr AuthData),
        SysLab.finish j resp ∈ wRest →
        ∃ d, resp = Except.ok d ∧ validAuthData d = true := by
      intro j resp hm
      simp only [wRest, List.mem_cons, List.not_mem_nil, or_false] at hm
      rcases hm with hm | hm | hm
      · simp at hm
      · injection hm with h1 h2
        exact ⟨wGood, h2, by decide⟩
      · simp at hm
    obtain ⟨s, hs⟩ : ∃ s, sysRun wS0 (SysLab.invoke 0 :: wRest) = some s :=
      ⟨_, rfl⟩
    have hnow : (sysRun wS0 (SysLab.invoke 0 :: wRest)).map SysState.now =
        some 30 := rfl
    rw [hs] at hnow
    have hnow2 : s.now = 30 := by simpa using hnow
    have hmain := renewAuthToken_serialized.2 2 0 wRest wS0 s hinit (by decide)
      hs (by rw [hnow2]; decide) hfin
    exact ⟨s, hs, by rw [hnow2]; decide, hmain.1, hmain.2⟩
